import Mathlib

/-!
# Kernighan & Ritchie exercises 1-3, 1-4 and 8-7

A shallow embedding of the three programs of the repository

* `kernighan-ritchie-exercises/ch-01/03.c` (Fahrenheit to Celsius tables),
* `kernighan-ritchie-exercises/ch-01/04.c` (Celsius to Fahrenheit tables),
* `kernighan-ritchie-exercises/ch-08/07.c` (the allocator stub),

followed by the properties the specification states about them.

## Arithmetic

The C programs compute with `float` and `double`.  A finite floating-point value
is represented here by the rational number it denotes, and every C operation is
the exact rational operation followed by the rounding of its result type.  The
rounding is a parameter (`FloatSem`) of every translated function, so that one
and the same translation of the source can be read

* with `ieee`: IEEE 754 binary32 for `float`, binary64 for `double`,
  round-to-nearest-even, gradual underflow, every expression evaluated in its
  own type (`FLT_EVAL_METHOD == 0`); the exponent range has no upper end here,
  which is exact for the two programs, all of whose values are below `2 ^ 10`
  in magnitude; the section on overflow adds infinities and NaN for the
  properties of the conversion functions over all `float` values;
* with `exact`: no rounding at all, the arithmetic of the real numbers.

## Output

A process state records, per stream, the list of strings written by the
successive `printf`/`fprintf` calls.  `%6.1f` and `%-6s` are modelled by
`fmt_f` and `fmt_s_left`.
-/

namespace KR

/-! ## Binary floating-point rounding -/

/-- The rational number `2 ^ e` for an integer exponent. -/
def pow2 (e : Int) : Rat :=
  if 0 ≤ e then ((2 ^ e.toNat : Nat) : Rat) else 1 / ((2 ^ (-e).toNat : Nat) : Rat)

/-- Number of binary digits of `n`, by repeated halving (`fuel` bounds the number of halvings). -/
def bitLenAux : Nat → Nat → Nat
  | 0, _ => 0
  | fuel + 1, n => if n = 0 then 0 else bitLenAux fuel (n / 2) + 1

/-- Number of binary digits of `n` (`0` for `n = 0`). -/
def bitLen (n : Nat) : Nat := bitLenAux n n

/-- The binary exponent of a nonzero rational: the `k` with `2 ^ k ≤ |x| < 2 ^ (k + 1)`. -/
def ilog2 (x : Rat) : Int :=
  let a : Int := bitLen x.num.natAbs
  let b : Int := bitLen x.den
  if pow2 (a - b) ≤ |x| then a - b else a - b - 1

/-- Nearest integer, ties to the even one. -/
def roundHalfEven (x : Rat) : Int :=
  let f := Int.floor x
  let r := x - f
  if r < 1 / 2 then f
  else if 1 / 2 < r then f + 1
  else if f % 2 = 0 then f else f + 1

/-- Round to nearest, ties to even, in the binary format with `p` significand bits whose least
exponent (the exponent of the unit in the last place of a subnormal number) is `emin`. -/
def roundTo (p : Nat) (emin : Int) (x : Rat) : Rat :=
  if x = 0 then 0
  else
    let e := max (ilog2 x - ((p : Int) - 1)) emin
    (roundHalfEven (x / pow2 e) : Rat) * pow2 e

/-- The interpretation of the two C floating types: the rounding applied to the exact result of
an operation of type `float`, and of type `double`. -/
structure FloatSem where
  /-- Rounding to `float`. -/
  toFloat : Rat → Rat
  /-- Rounding to `double`. -/
  toDouble : Rat → Rat

/-- IEEE 754: `float` is binary32 (24 bits, least exponent -149), `double` is binary64
(53 bits, least exponent -1074). -/
def ieee : FloatSem where
  toFloat := roundTo 24 (-149)
  toDouble := roundTo 53 (-1074)

/-- Exact arithmetic: nothing is rounded. -/
def exact : FloatSem where
  toFloat := id
  toDouble := id

/-! ## Formatted output -/

/-- The two output streams a program writes to. -/
structure Proc where
  /-- The strings written to standard output, one per call, in order. -/
  stdout : List String
  /-- The strings written to standard error, one per call, in order. -/
  stderr : List String
deriving DecidableEq, Repr

/-- The state of a process that has written nothing yet. -/
def Proc.start : Proc := ⟨[], []⟩

/-- The C call `printf(s)` with the format already expanded to `s`. -/
def printf (s : String) (p : Proc) : Proc := ⟨p.stdout ++ [s], p.stderr⟩

/-- The C call `fprintf(stderr, s)` with the format already expanded to `s`. -/
def eprintf (s : String) (p : Proc) : Proc := ⟨p.stdout, p.stderr ++ [s]⟩

/-- A string of `n` spaces. -/
def spaces (n : Nat) : String := String.mk (List.replicate n (Char.ofNat 32))

/-- The decimal digits of `n`, at least `w` of them (zero-padded on the left). -/
def digits (w n : Nat) : String :=
  let ds := Nat.toDigits 10 n
  String.mk (List.replicate (w - ds.length) (Char.ofNat 48) ++ ds)

/-- The conversion `%.<prec>f` without padding: sign, integer part, and `prec` digits after the
point, the exact value being rounded to the nearest such decimal (ties to even). -/
def fmt_f_body (prec : Nat) (x : Rat) : String :=
  let t := (roundHalfEven (|x| * (10 ^ prec : Nat))).toNat
  let sign := if x < 0 then "-" else ""
  let frac := if prec = 0 then "" else "." ++ digits prec (t % 10 ^ prec)
  sign ++ digits 1 (t / 10 ^ prec) ++ frac

/-- The conversion `%<width>.<prec>f`: right-aligned, padded with spaces on the left up to
`width` characters, never truncated. -/
def fmt_f (width prec : Nat) (x : Rat) : String :=
  let body := fmt_f_body prec x
  spaces (width - body.length) ++ body

/-- The conversion `%-<width>s`: left-aligned, padded with spaces on the right. -/
def fmt_s_left (width : Nat) (s : String) : String :=
  s ++ spaces (width - s.length)

/-! ## `ch-01/03.c` -/

namespace Ex03

/-- Translation of `float f_to_c(float fahr) { return (5.0/9.0) * (fahr - 32.0); }`: the
constants are `double`, `fahr` is promoted (exactly) to `double`, the quotient, the difference and
the product are `double` operations, and the result is converted to `float`. -/
def f_to_c (A : FloatSem) (fahr : Rat) : Rat :=
  A.toFloat (A.toDouble (A.toDouble (A.toDouble 5 / A.toDouble 9)
    * A.toDouble (fahr - A.toDouble 32)))

/-- Translation of `static float lower = 0.0;`. -/
def lower (A : FloatSem) : Rat := A.toFloat (A.toDouble 0)

/-- Translation of `static float upper = 300.0;`. -/
def upper (A : FloatSem) : Rat := A.toFloat (A.toDouble 300)

/-- Translation of `static float step = 20.0;`. -/
def step (A : FloatSem) : Rat := A.toFloat (A.toDouble 20)

/-- Translation of `ref_temp_t`. -/
structure ref_temp_t where
  /-- Field `char *ref`. -/
  ref : String
  /-- Field `float fahr`. -/
  fahr : Rat
deriving DecidableEq, Repr

/-- Translation of the initialiser of `ref_temps`: each decimal constant is a `double` converted
to the `float` field. -/
def ref_temps (A : FloatSem) : List ref_temp_t :=
  [ ⟨"Water freezing point", A.toFloat (A.toDouble 32)⟩,
    ⟨"Water boiling point", A.toFloat (A.toDouble 212)⟩,
    ⟨"Normal body temperature", A.toFloat (A.toDouble (986 / 10))⟩,
    ⟨"Lowest temperature on Earth (Antarctica)", A.toFloat (A.toDouble (-(1286 / 10)))⟩,
    ⟨"Highest temperature on Earth (Death Valley)", A.toFloat (A.toDouble 134)⟩,
    ⟨"Where F and C are equal", A.toFloat (A.toDouble (-40))⟩ ]

/-- The text written by `printf("%6.1f | %6.1f\n", fahr, f_to_c(fahr))`. -/
def sweepRow (A : FloatSem) (fahr : Rat) : String :=
  fmt_f 6 1 fahr ++ " | " ++ fmt_f 6 1 (f_to_c A fahr) ++ "\n"

/-- The text written by `printf("%6.1f | %6.1f | %s\n", ref_temp.fahr, f_to_c(ref_temp.fahr),
ref_temp.ref)`. -/
def refRow (A : FloatSem) (r : ref_temp_t) : String :=
  fmt_f 6 1 r.fahr ++ " | " ++ fmt_f 6 1 (f_to_c A r.fahr) ++ " | " ++ r.ref ++ "\n"

/-- Translation of `for (float fahr = lower; fahr <= upper; fahr = fahr + step) printf(...)`,
entered with the current value of `fahr`.  Each evaluation of the loop condition uses one unit of
`fuel`; `none` means the fuel ran out before the loop was left. -/
def sweepLoop (A : FloatSem) : Nat → Rat → Proc → Option Proc
  | 0, _, _ => none
  | fuel + 1, fahr, p =>
    if fahr ≤ upper A then
      sweepLoop A fuel (A.toFloat (fahr + step A)) (printf (sweepRow A fahr) p)
    else some p

/-- Translation of `for (size_t index = 0; index < sizeof(ref_temps)/sizeof(ref_temps[0]);
index++) { ref_temp_t ref_temp = ref_temps[index]; printf(...); }`, entered with the current
value of `index`. -/
def refLoop (A : FloatSem) : Nat → Nat → Proc → Option Proc
  | 0, _, _ => none
  | fuel + 1, index, p =>
    if h : index < (ref_temps A).length then
      refLoop A fuel (index + 1) (printf (refRow A ((ref_temps A).get ⟨index, h⟩)) p)
    else some p

/-- Translation of `main`: the final process state and the returned exit code. -/
def main (A : FloatSem) (fuel : Nat) : Option (Proc × Int) := do
  let p := Proc.start
  let p := printf "Fahrenheit to Celsius conversion table:\n" p
  let p := printf (fmt_s_left 6 "F" ++ " | " ++ fmt_s_left 6 "C" ++ "\n") p
  let p := printf "---------------\n" p
  let p ← sweepLoop A fuel (lower A) p
  let p := printf "---------------\n" p
  let p := printf "\n" p
  let p := printf "Reference temperatures:\n" p
  let p := printf (fmt_s_left 6 "F" ++ " | " ++ fmt_s_left 6 "C" ++ " | Reference\n") p
  let p := printf "-------------------------\n" p
  let p ← refLoop A fuel 0 p
  let p := printf "-------------------------\n" p
  return (p, 0)

end Ex03

/-! ## `ch-01/04.c` -/

namespace Ex04

/-- Translation of `float c_to_f(float celsius) { return (9.0/5.0) * celsius + 32.0; }`: the
constants are `double`, `celsius` is promoted (exactly) to `double`, the quotient, the product and
the sum are `double` operations, and the result is converted to `float`. -/
def c_to_f (A : FloatSem) (celsius : Rat) : Rat :=
  A.toFloat (A.toDouble (A.toDouble (A.toDouble (A.toDouble 9 / A.toDouble 5) * celsius)
    + A.toDouble 32))

/-- Translation of `static float lower = 0.0;`. -/
def lower (A : FloatSem) : Rat := A.toFloat (A.toDouble 0)

/-- Translation of `static float upper = 300.0;`. -/
def upper (A : FloatSem) : Rat := A.toFloat (A.toDouble 300)

/-- Translation of `static float step = 20.0;`. -/
def step (A : FloatSem) : Rat := A.toFloat (A.toDouble 20)

/-- Translation of `ref_temp_t`. -/
structure ref_temp_t where
  /-- Field `char *ref`. -/
  ref : String
  /-- Field `float celsius`. -/
  celsius : Rat
deriving DecidableEq, Repr

/-- Translation of the initialiser of `ref_temps`: each decimal constant is a `double` converted
to the `float` field. -/
def ref_temps (A : FloatSem) : List ref_temp_t :=
  [ ⟨"Water freezing point", A.toFloat (A.toDouble 0)⟩,
    ⟨"Water boiling point", A.toFloat (A.toDouble 100)⟩,
    ⟨"Normal body temperature", A.toFloat (A.toDouble 37)⟩,
    ⟨"Lowest temperature on Earth (Antarctica)", A.toFloat (A.toDouble (-(892 / 10)))⟩,
    ⟨"Highest temperature on Earth (Death Valley)", A.toFloat (A.toDouble (567 / 10))⟩,
    ⟨"Where F and C are equal", A.toFloat (A.toDouble (-40))⟩ ]

/-- The text written by `printf("%6.1f | %6.1f\n", celsius, c_to_f(celsius))`. -/
def sweepRow (A : FloatSem) (celsius : Rat) : String :=
  fmt_f 6 1 celsius ++ " | " ++ fmt_f 6 1 (c_to_f A celsius) ++ "\n"

/-- The text written by `printf("%6.1f | %6.1f | %s\n", ref_temp.celsius,
c_to_f(ref_temp.celsius), ref_temp.ref)`. -/
def refRow (A : FloatSem) (r : ref_temp_t) : String :=
  fmt_f 6 1 r.celsius ++ " | " ++ fmt_f 6 1 (c_to_f A r.celsius) ++ " | " ++ r.ref ++ "\n"

/-- Translation of `for (float celsius = lower; celsius <= upper; celsius = celsius + step)
printf(...)`, entered with the current value of `celsius`.  Each evaluation of the loop condition
uses one unit of `fuel`; `none` means the fuel ran out before the loop was left. -/
def sweepLoop (A : FloatSem) : Nat → Rat → Proc → Option Proc
  | 0, _, _ => none
  | fuel + 1, celsius, p =>
    if celsius ≤ upper A then
      sweepLoop A fuel (A.toFloat (celsius + step A)) (printf (sweepRow A celsius) p)
    else some p

/-- Translation of `for (size_t index = 0; index < sizeof(ref_temps)/sizeof(ref_temps[0]);
index++) { ref_temp_t ref_temp = ref_temps[index]; printf(...); }`, entered with the current
value of `index`. -/
def refLoop (A : FloatSem) : Nat → Nat → Proc → Option Proc
  | 0, _, _ => none
  | fuel + 1, index, p =>
    if h : index < (ref_temps A).length then
      refLoop A fuel (index + 1) (printf (refRow A ((ref_temps A).get ⟨index, h⟩)) p)
    else some p

/-- Translation of `main`: the final process state and the returned exit code. -/
def main (A : FloatSem) (fuel : Nat) : Option (Proc × Int) := do
  let p := Proc.start
  let p := printf "Celsius to Fahrenheit conversion table:\n" p
  let p := printf (fmt_s_left 6 "C" ++ " | " ++ fmt_s_left 6 "F" ++ "\n") p
  let p := printf "---------------\n" p
  let p ← sweepLoop A fuel (lower A) p
  let p := printf "---------------\n" p
  let p := printf "\n" p
  let p := printf "Reference temperatures:\n" p
  let p := printf (fmt_s_left 6 "C" ++ " | " ++ fmt_s_left 6 "F" ++ " | Reference\n") p
  let p := printf "-------------------------\n" p
  let p ← refLoop A fuel 0 p
  let p := printf "-------------------------\n" p
  return (p, 0)

end Ex04

/-! ## `ch-08/07.c` -/

namespace Ex07

/-- Translation of `main`: `fprintf(stderr, "PENDING\n"); return 0;`. -/
def main : Proc × Int :=
  let p := Proc.start
  let p := eprintf "PENDING\n" p
  (p, 0)

end Ex07

/-! ## Overflow

`roundTo` rounds as if the exponent range had no upper end.  IEEE 754 delivers an infinity when
the value so rounded is beyond the largest finite number of the format.  The definitions below
add that case, and the arithmetic of infinities and NaN, on top of `roundTo`, and translate the two
conversion functions once more over such values.  Zero carries no sign here. -/

/-- The values the sweep loop visits: the loop `for (v = lower; v <= upper; v = v + step)` of
either `main` with the printing left out. -/
def sweepVals (A : FloatSem) (upper step : Rat) : Nat → Rat → Option (List Rat)
  | 0, _ => none
  | fuel + 1, v =>
    if v ≤ upper then (sweepVals A upper step fuel (A.toFloat (v + step))).map (v :: ·)
    else some []

/-- The decimal number with one digit after the point nearest to `x` (ties to even). -/
def roundDec1 (x : Rat) : Rat := (roundHalfEven (x * 10) : Rat) / 10

/-- Recognises a rendered numeric field: exactly `width` characters, made of spaces on the left
followed by an optional minus sign, at least one digit, a decimal point and exactly one digit. -/
def isPaddedDecimal1 (width : Nat) (s : String) : Bool :=
  let cs := s.data
  let body := cs.dropWhile (fun c => c == Char.ofNat 32)
  let mag := if body.head? = some (Char.ofNat 45) then body.tail else body
  cs.length == width &&
    match mag.reverse with
    | d :: pt :: ip => d.isDigit && pt == Char.ofNat 46 && !ip.isEmpty && ip.all Char.isDigit
    | _ => false

/-- Recognises a separator line: one or more dashes and the end of line, nothing else. -/
def isDashLine (s : String) : Bool :=
  match s.data.reverse with
  | nl :: d :: ds => nl == Char.ofNat 10 && (d :: ds).all (fun c => c == Char.ofNat 45)
  | _ => false

/-- The output shape the specification describes, read literally: the lines written are a swept
range table (header row, separator, `nSweep` rows, closing separator) followed by a reference
table (header row, separator, `nRef` rows, trailer separator), and nothing else. -/
def TwoTablesOnly (nSweep nRef : Nat) (out : List String) : Prop :=
  ∃ (h1 s1 c1 h2 s2 c2 : String) (rows1 rows2 : List String),
    out = [h1, s1] ++ rows1 ++ [c1] ++ [h2, s2] ++ rows2 ++ [c2] ∧
    rows1.length = nSweep ∧ rows2.length = nRef ∧
    isDashLine s1 = true ∧ isDashLine c1 = true ∧ isDashLine s2 = true ∧ isDashLine c2 = true

/-! ## Rounding lemmas -/

/-- The rounding function reproduces well-known IEEE values: the `float` and the `double` nearest
to one tenth, ties going to the even significand, and gradual underflow below `2 ^ (-149)`. -/
theorem roundTo_known_values :
    ieee.toFloat (1 / 10) = 13421773 / 134217728 ∧
    ieee.toDouble (1 / 10) = 3602879701896397 / 36028797018963968 ∧
    ieee.toFloat (1 + 1 / 2 ^ 24) = 1 ∧
    ieee.toFloat (1 + 3 / 2 ^ 24) = 1 + 1 / 2 ^ 22 ∧
    ieee.toFloat (16777217) = 16777216 ∧
    ieee.toFloat (1 / 2 ^ 150) = 0 ∧
    ieee.toFloat (3 / 2 ^ 150) = 1 / 2 ^ 148 ∧
    ieee.toFloat (-(1286 / 10)) = -(4213965 / 32768) := by decide!

theorem sweepVals_succ (A : FloatSem) (upper step : Rat) (fuel : Nat) :
    ∀ (v : Rat) (vs : List Rat), sweepVals A upper step fuel v = some vs →
      sweepVals A upper step (fuel + 1) v = some vs := by
  induction fuel with
  | zero => intro v vs h; simp [sweepVals] at h
  | succ n ih =>
    intro v vs h
    rw [sweepVals] at h ⊢
    by_cases hv : v ≤ upper
    · rw [if_pos hv] at h ⊢
      cases hr : sweepVals A upper step n (A.toFloat (v + step)) with
      | none => rw [hr] at h; simp at h
      | some ws => rw [hr] at h; rw [ih _ _ hr]; exact h
    · rw [if_neg hv] at h ⊢; exact h

theorem sweepVals_mono (A : FloatSem) (upper step : Rat) (v : Rat) (vs : List Rat) (n m : Nat)
    (hnm : n ≤ m) (h : sweepVals A upper step n v = some vs) :
    sweepVals A upper step m v = some vs := by
  induction m, hnm using Nat.le_induction with
  | base => exact h
  | succ k _ ih => exact sweepVals_succ A upper step k v vs ih

/-- Under IEEE arithmetic the sweep from 0 to 300 in steps of 20 leaves the loop at the
seventeenth evaluation of its condition, after the sixteen values 0, 20, ..., 300. -/
theorem sweepVals_ieee (fuel : Nat) (h : 17 ≤ fuel) :
    sweepVals ieee 300 20 fuel 0 = some ((List.range 16).map (fun (i : Nat) => 20 * (i : Rat))) :=
  sweepVals_mono ieee 300 20 0 _ 17 fuel h (by decide!)

theorem consts_ieee :
    Ex03.lower ieee = 0 ∧ Ex03.upper ieee = 300 ∧ Ex03.step ieee = 20 ∧
    Ex04.lower ieee = 0 ∧ Ex04.upper ieee = 300 ∧ Ex04.step ieee = 20 := by decide!

theorem sweepVals03_ieee (fuel : Nat) (h : 17 ≤ fuel) :
    sweepVals ieee (Ex03.upper ieee) (Ex03.step ieee) fuel (Ex03.lower ieee)
      = some ((List.range 16).map (fun (i : Nat) => 20 * (i : Rat))) := by
  obtain ⟨h1, h2, h3, -, -, -⟩ := consts_ieee
  rw [h1, h2, h3]
  exact sweepVals_ieee fuel h

theorem sweepVals04_ieee (fuel : Nat) (h : 17 ≤ fuel) :
    sweepVals ieee (Ex04.upper ieee) (Ex04.step ieee) fuel (Ex04.lower ieee)
      = some ((List.range 16).map (fun (i : Nat) => 20 * (i : Rat))) := by
  obtain ⟨-, -, -, h4, h5, h6⟩ := consts_ieee
  rw [h4, h5, h6]
  exact sweepVals_ieee fuel h

theorem sweepLoop03_eq (A : FloatSem) (fuel : Nat) : ∀ (v : Rat) (p : Proc),
    Ex03.sweepLoop A fuel v p = (sweepVals A (Ex03.upper A) (Ex03.step A) fuel v).map
      (fun vs => ⟨p.stdout ++ vs.map (Ex03.sweepRow A), p.stderr⟩) := by
  induction fuel with
  | zero => intro v p; rfl
  | succ n ih =>
    intro v p
    rw [Ex03.sweepLoop, sweepVals]
    by_cases hv : v ≤ Ex03.upper A
    · rw [if_pos hv, if_pos hv, ih]
      cases sweepVals A (Ex03.upper A) (Ex03.step A) n (A.toFloat (v + Ex03.step A)) with
      | none => rfl
      | some ws => simp [printf]
    · rw [if_neg hv, if_neg hv]; simp

theorem sweepLoop04_eq (A : FloatSem) (fuel : Nat) : ∀ (v : Rat) (p : Proc),
    Ex04.sweepLoop A fuel v p = (sweepVals A (Ex04.upper A) (Ex04.step A) fuel v).map
      (fun vs => ⟨p.stdout ++ vs.map (Ex04.sweepRow A), p.stderr⟩) := by
  induction fuel with
  | zero => intro v p; rfl
  | succ n ih =>
    intro v p
    rw [Ex04.sweepLoop, sweepVals]
    by_cases hv : v ≤ Ex04.upper A
    · rw [if_pos hv, if_pos hv, ih]
      cases sweepVals A (Ex04.upper A) (Ex04.step A) n (A.toFloat (v + Ex04.step A)) with
      | none => rfl
      | some ws => simp [printf]
    · rw [if_neg hv, if_neg hv]; simp

theorem refLoop03_from (A : FloatSem) (fuel : Nat) : ∀ (index : Nat) (p : Proc),
    (Ex03.ref_temps A).length - index < fuel →
    Ex03.refLoop A fuel index p =
      some ⟨p.stdout ++ ((Ex03.ref_temps A).drop index).map (Ex03.refRow A), p.stderr⟩ := by
  induction fuel with
  | zero => intro index p h; omega
  | succ n ih =>
    intro index p h
    rw [Ex03.refLoop]
    by_cases hi : index < (Ex03.ref_temps A).length
    · rw [dif_pos hi, ih _ _ (by omega)]
      have hd := List.drop_eq_getElem_cons hi
      simp only [printf, List.get_eq_getElem, hd, List.map_cons, List.append_assoc,
        List.singleton_append]
    · rw [dif_neg hi, List.drop_of_length_le (by omega)]; simp

theorem refLoop04_from (A : FloatSem) (fuel : Nat) : ∀ (index : Nat) (p : Proc),
    (Ex04.ref_temps A).length - index < fuel →
    Ex04.refLoop A fuel index p =
      some ⟨p.stdout ++ ((Ex04.ref_temps A).drop index).map (Ex04.refRow A), p.stderr⟩ := by
  induction fuel with
  | zero => intro index p h; omega
  | succ n ih =>
    intro index p h
    rw [Ex04.refLoop]
    by_cases hi : index < (Ex04.ref_temps A).length
    · rw [dif_pos hi, ih _ _ (by omega)]
      have hd := List.drop_eq_getElem_cons hi
      simp only [printf, List.get_eq_getElem, hd, List.map_cons, List.append_assoc,
        List.singleton_append]
    · rw [dif_neg hi, List.drop_of_length_le (by omega)]; simp

theorem refLoop03_stderr (A : FloatSem) (fuel : Nat) : ∀ (index : Nat) (p q : Proc),
    Ex03.refLoop A fuel index p = some q → q.stderr = p.stderr := by
  induction fuel with
  | zero => intro index p q h; simp [Ex03.refLoop] at h
  | succ n ih =>
    intro index p q h
    rw [Ex03.refLoop] at h
    by_cases hi : index < (Ex03.ref_temps A).length
    · rw [dif_pos hi] at h; exact (ih _ _ _ h).trans rfl
    · rw [dif_neg hi] at h; cases h; rfl

theorem refLoop04_stderr (A : FloatSem) (fuel : Nat) : ∀ (index : Nat) (p q : Proc),
    Ex04.refLoop A fuel index p = some q → q.stderr = p.stderr := by
  induction fuel with
  | zero => intro index p q h; simp [Ex04.refLoop] at h
  | succ n ih =>
    intro index p q h
    rw [Ex04.refLoop] at h
    by_cases hi : index < (Ex04.ref_temps A).length
    · rw [dif_pos hi] at h; exact (ih _ _ _ h).trans rfl
    · rw [dif_neg hi] at h; cases h; rfl

theorem sweepLoop03_stderr (A : FloatSem) (fuel : Nat) (v : Rat) (p q : Proc)
    (h : Ex03.sweepLoop A fuel v p = some q) : q.stderr = p.stderr := by
  rw [sweepLoop03_eq] at h
  cases hs : sweepVals A (Ex03.upper A) (Ex03.step A) fuel v with
  | none => rw [hs] at h; simp at h
  | some vs => rw [hs] at h; simp at h; rw [← h]

theorem sweepLoop04_stderr (A : FloatSem) (fuel : Nat) (v : Rat) (p q : Proc)
    (h : Ex04.sweepLoop A fuel v p = some q) : q.stderr = p.stderr := by
  rw [sweepLoop04_eq] at h
  cases hs : sweepVals A (Ex04.upper A) (Ex04.step A) fuel v with
  | none => rw [hs] at h; simp at h
  | some vs => rw [hs] at h; simp at h; rw [← h]

/-- The whole run of `main` of `03.c`, for any arithmetic in which the sweep visits `vs`. -/
theorem main03_eq (A : FloatSem) (fuel : Nat) (vs : List Rat) (hf : 7 ≤ fuel)
    (hs : sweepVals A (Ex03.upper A) (Ex03.step A) fuel (Ex03.lower A) = some vs) :
    Ex03.main A fuel = some
      (⟨["Fahrenheit to Celsius conversion table:\n", "F      | C     \n", "---------------\n"]
          ++ vs.map (Ex03.sweepRow A)
          ++ ["---------------\n", "\n", "Reference temperatures:\n",
              "F      | C      | Reference\n", "-------------------------\n"]
          ++ (Ex03.ref_temps A).map (Ex03.refRow A)
          ++ ["-------------------------\n"], []⟩, 0) := by
  have hh1 : fmt_s_left 6 "F" ++ " | " ++ fmt_s_left 6 "C" ++ "\n" = "F      | C     \n" := by
    decide
  have hh2 : fmt_s_left 6 "F" ++ " | " ++ fmt_s_left 6 "C" ++ " | Reference\n"
      = "F      | C      | Reference\n" := by decide
  have hlen : (Ex03.ref_temps A).length = 6 := rfl
  simp only [Ex03.main, sweepLoop03_eq, hs, hh1, hh2, Option.map_some', Option.bind_eq_bind,
    Option.some_bind, refLoop03_from A fuel 0 _ (by rw [hlen]; omega), List.drop_zero,
    printf, Proc.start, List.nil_append, List.append_assoc, List.singleton_append,
    List.cons_append, Option.pure_def]

/-- The whole run of `main` of `04.c`, for any arithmetic in which the sweep visits `vs`. -/
theorem main04_eq (A : FloatSem) (fuel : Nat) (vs : List Rat) (hf : 7 ≤ fuel)
    (hs : sweepVals A (Ex04.upper A) (Ex04.step A) fuel (Ex04.lower A) = some vs) :
    Ex04.main A fuel = some
      (⟨["Celsius to Fahrenheit conversion table:\n", "C      | F     \n", "---------------\n"]
          ++ vs.map (Ex04.sweepRow A)
          ++ ["---------------\n", "\n", "Reference temperatures:\n",
              "C      | F      | Reference\n", "-------------------------\n"]
          ++ (Ex04.ref_temps A).map (Ex04.refRow A)
          ++ ["-------------------------\n"], []⟩, 0) := by
  have hh1 : fmt_s_left 6 "C" ++ " | " ++ fmt_s_left 6 "F" ++ "\n" = "C      | F     \n" := by
    decide
  have hh2 : fmt_s_left 6 "C" ++ " | " ++ fmt_s_left 6 "F" ++ " | Reference\n"
      = "C      | F      | Reference\n" := by decide
  have hlen : (Ex04.ref_temps A).length = 6 := rfl
  simp only [Ex04.main, sweepLoop04_eq, hs, hh1, hh2, Option.map_some', Option.bind_eq_bind,
    Option.some_bind, refLoop04_from A fuel 0 _ (by rw [hlen]; omega), List.drop_zero,
    printf, Proc.start, List.nil_append, List.append_assoc, List.singleton_append,
    List.cons_append, Option.pure_def]

/-! ## The stated properties -/

/-- C1: `f_to_c` maps 32 to 0, 212 to 100 and -40 to -40, exactly, both under IEEE `float`/`double`
arithmetic and in exact arithmetic, where it is `x ↦ (5/9) * (x - 32)`. -/
theorem f_to_c_named_values :
    (Ex03.f_to_c ieee 32 = 0 ∧ Ex03.f_to_c ieee 212 = 100 ∧ Ex03.f_to_c ieee (-40) = -40) ∧
    (Ex03.f_to_c exact 32 = 0 ∧ Ex03.f_to_c exact 212 = 100 ∧ Ex03.f_to_c exact (-40) = -40) ∧
    ∀ x : Rat, Ex03.f_to_c exact x = 5 / 9 * (x - 32) := by
  refine ⟨by decide!, ?_, ?_⟩
  · simp only [Ex03.f_to_c, exact, id]; norm_num
  · intro x; simp only [Ex03.f_to_c, exact, id]

/-- C3: run with enough fuel (17 evaluations of the condition), the sweep loop of either `main`
is left, having written exactly 16 rows, `floor((upper - lower) / step) + 1` of them, for the
values 0, 20, ..., 300 in this order, each row showing the value and its conversion. -/
theorem sweep_loop_sixteen_rows (fuel : Nat) (h : 17 ≤ fuel) (p : Proc) :
    Ex03.sweepLoop ieee fuel (Ex03.lower ieee) p =
      some ⟨p.stdout ++ (List.range 16).map (fun (i : Nat) =>
        fmt_f 6 1 (20 * (i : Rat)) ++ " | " ++ fmt_f 6 1 (Ex03.f_to_c ieee (20 * (i : Rat)))
          ++ "\n"), p.stderr⟩ ∧
    Ex04.sweepLoop ieee fuel (Ex04.lower ieee) p =
      some ⟨p.stdout ++ (List.range 16).map (fun (i : Nat) =>
        fmt_f 6 1 (20 * (i : Rat)) ++ " | " ++ fmt_f 6 1 (Ex04.c_to_f ieee (20 * (i : Rat)))
          ++ "\n"), p.stderr⟩ ∧
    Int.floor ((Ex03.upper ieee - Ex03.lower ieee) / Ex03.step ieee) + 1 = 16 ∧
    Int.floor ((Ex04.upper ieee - Ex04.lower ieee) / Ex04.step ieee) + 1 = 16 ∧
    ((List.range 16).map (fun (i : Nat) => 20 * (i : Rat))).getLast? = some (Ex03.upper ieee) := by
  refine ⟨?_, ?_, by decide!, by decide!, by decide!⟩
  · rw [sweepLoop03_eq, sweepVals03_ieee fuel h]
    simp only [Option.map_some', List.map_map]
    rfl
  · rw [sweepLoop04_eq, sweepVals04_ieee fuel h]
    simp only [Option.map_some', List.map_map]
    rfl

/-- C3 with fuel 17, from the state in which nothing has been written. -/
theorem sweep_loop_sixteen_rows_witness :
    17 ≤ 17 ∧ Ex03.sweepLoop ieee 17 (Ex03.lower ieee) Proc.start =
      some ⟨Proc.start.stdout ++ (List.range 16).map (fun (i : Nat) =>
        fmt_f 6 1 (20 * (i : Rat)) ++ " | " ++ fmt_f 6 1 (Ex03.f_to_c ieee (20 * (i : Rat)))
          ++ "\n"), Proc.start.stderr⟩ :=
  ⟨by decide, (sweep_loop_sixteen_rows 17 (by decide) Proc.start).1⟩

/-- C4: run with enough fuel (7 evaluations of the condition), the reference loop of either `main`
writes exactly one row per entry of `ref_temps`, six rows, in the order of the array, each row
showing the entry's value, the conversion of that value, and the entry's label. -/
theorem reference_loop_one_row_per_entry (A : FloatSem) (fuel : Nat) (h : 7 ≤ fuel) (p : Proc) :
    Ex03.refLoop A fuel 0 p =
      some ⟨p.stdout ++ (Ex03.ref_temps A).map (fun r =>
        fmt_f 6 1 r.fahr ++ " | " ++ fmt_f 6 1 (Ex03.f_to_c A r.fahr) ++ " | " ++ r.ref ++ "\n"),
        p.stderr⟩ ∧
    Ex04.refLoop A fuel 0 p =
      some ⟨p.stdout ++ (Ex04.ref_temps A).map (fun r =>
        fmt_f 6 1 r.celsius ++ " | " ++ fmt_f 6 1 (Ex04.c_to_f A r.celsius) ++ " | " ++ r.ref
          ++ "\n"), p.stderr⟩ ∧
    (Ex03.ref_temps A).length = 6 ∧ (Ex04.ref_temps A).length = 6 := by
  have h3 : (Ex03.ref_temps A).length = 6 := rfl
  have h4 : (Ex04.ref_temps A).length = 6 := rfl
  refine ⟨?_, ?_, h3, h4⟩
  · rw [refLoop03_from A fuel 0 p (by rw [h3]; omega)]; rfl
  · rw [refLoop04_from A fuel 0 p (by rw [h4]; omega)]; rfl

/-- C4 with fuel 7 under IEEE arithmetic, from the state in which nothing has been written. -/
theorem reference_loop_one_row_per_entry_witness :
    7 ≤ 7 ∧ Ex03.refLoop ieee 7 0 Proc.start =
      some ⟨Proc.start.stdout ++ (Ex03.ref_temps ieee).map (fun r =>
        fmt_f 6 1 r.fahr ++ " | " ++ fmt_f 6 1 (Ex03.f_to_c ieee r.fahr) ++ " | " ++ r.ref
          ++ "\n"), Proc.start.stderr⟩ :=
  ⟨by decide, (reference_loop_one_row_per_entry ieee 7 (by decide) Proc.start).1⟩

/-- C5: with enough fuel, every row the sweep loop and the reference loop of either program
write has the shape `field | field` (followed by ` | label` in the reference table), where each
of the two numeric fields is exactly 6 characters: spaces on the left only, then an optional
sign, digits, the decimal point and exactly one digit. -/
theorem numeric_fields_six_wide (fuel : Nat) (h : 17 ≤ fuel) :
    (∃ rows, Ex03.sweepLoop ieee fuel (Ex03.lower ieee) Proc.start = some ⟨rows, []⟩ ∧
      ∀ row ∈ rows, ∃ f1 f2 : String, row = f1 ++ " | " ++ f2 ++ "\n" ∧
        isPaddedDecimal1 6 f1 = true ∧ isPaddedDecimal1 6 f2 = true) ∧
    (∃ rows, Ex03.refLoop ieee fuel 0 Proc.start = some ⟨rows, []⟩ ∧
      ∀ row ∈ rows, ∃ f1 f2 label : String, row = f1 ++ " | " ++ f2 ++ " | " ++ label ++ "\n" ∧
        isPaddedDecimal1 6 f1 = true ∧ isPaddedDecimal1 6 f2 = true) ∧
    (∃ rows, Ex04.sweepLoop ieee fuel (Ex04.lower ieee) Proc.start = some ⟨rows, []⟩ ∧
      ∀ row ∈ rows, ∃ f1 f2 : String, row = f1 ++ " | " ++ f2 ++ "\n" ∧
        isPaddedDecimal1 6 f1 = true ∧ isPaddedDecimal1 6 f2 = true) ∧
    (∃ rows, Ex04.refLoop ieee fuel 0 Proc.start = some ⟨rows, []⟩ ∧
      ∀ row ∈ rows, ∃ f1 f2 label : String, row = f1 ++ " | " ++ f2 ++ " | " ++ label ++ "\n" ∧
        isPaddedDecimal1 6 f1 = true ∧ isPaddedDecimal1 6 f2 = true) := by
  have hv3 : ∀ v ∈ (List.range 16).map (fun (i : Nat) => 20 * (i : Rat)),
      isPaddedDecimal1 6 (fmt_f 6 1 v) = true ∧
      isPaddedDecimal1 6 (fmt_f 6 1 (Ex03.f_to_c ieee v)) = true := by decide!
  have hv4 : ∀ v ∈ (List.range 16).map (fun (i : Nat) => 20 * (i : Rat)),
      isPaddedDecimal1 6 (fmt_f 6 1 v) = true ∧
      isPaddedDecimal1 6 (fmt_f 6 1 (Ex04.c_to_f ieee v)) = true := by decide!
  have hr3 : ∀ r ∈ Ex03.ref_temps ieee,
      isPaddedDecimal1 6 (fmt_f 6 1 r.fahr) = true ∧
      isPaddedDecimal1 6 (fmt_f 6 1 (Ex03.f_to_c ieee r.fahr)) = true := by decide!
  have hr4 : ∀ r ∈ Ex04.ref_temps ieee,
      isPaddedDecimal1 6 (fmt_f 6 1 r.celsius) = true ∧
      isPaddedDecimal1 6 (fmt_f 6 1 (Ex04.c_to_f ieee r.celsius)) = true := by decide!
  have l3 : (Ex03.ref_temps ieee).length = 6 := rfl
  have l4 : (Ex04.ref_temps ieee).length = 6 := rfl
  refine ⟨⟨((List.range 16).map (fun (i : Nat) => 20 * (i : Rat))).map (Ex03.sweepRow ieee),
      ?_, ?_⟩,
    ⟨(Ex03.ref_temps ieee).map (Ex03.refRow ieee), ?_, ?_⟩,
    ⟨((List.range 16).map (fun (i : Nat) => 20 * (i : Rat))).map (Ex04.sweepRow ieee), ?_, ?_⟩,
    ⟨(Ex04.ref_temps ieee).map (Ex04.refRow ieee), ?_, ?_⟩⟩
  · rw [sweepLoop03_eq, sweepVals03_ieee fuel h]; rfl
  · intro row hrow
    obtain ⟨v, hv, rfl⟩ := List.mem_map.mp hrow
    exact ⟨_, _, rfl, (hv3 v hv).1, (hv3 v hv).2⟩
  · rw [refLoop03_from ieee fuel 0 _ (by rw [l3]; omega)]; rfl
  · intro row hrow
    obtain ⟨r, hr, rfl⟩ := List.mem_map.mp hrow
    exact ⟨_, _, _, rfl, (hr3 r hr).1, (hr3 r hr).2⟩
  · rw [sweepLoop04_eq, sweepVals04_ieee fuel h]; rfl
  · intro row hrow
    obtain ⟨v, hv, rfl⟩ := List.mem_map.mp hrow
    exact ⟨_, _, rfl, (hv4 v hv).1, (hv4 v hv).2⟩
  · rw [refLoop04_from ieee fuel 0 _ (by rw [l4]; omega)]; rfl
  · intro row hrow
    obtain ⟨r, hr, rfl⟩ := List.mem_map.mp hrow
    exact ⟨_, _, _, rfl, (hr4 r hr).1, (hr4 r hr).2⟩

/-- C5 with fuel 17: the sweep rows of `03.c`. -/
theorem numeric_fields_six_wide_witness :
    17 ≤ 17 ∧ ∃ rows, Ex03.sweepLoop ieee 17 (Ex03.lower ieee) Proc.start = some ⟨rows, []⟩ ∧
      ∀ row ∈ rows, ∃ f1 f2 : String, row = f1 ++ " | " ++ f2 ++ "\n" ∧
        isPaddedDecimal1 6 f1 = true ∧ isPaddedDecimal1 6 f2 = true :=
  ⟨by decide, (numeric_fields_six_wide 17 (by decide)).1⟩

/-- C6 as stated fails: the lines `main` of `03.c` writes are not just the two tables (28 lines for
16 sweep rows and 6 reference rows); there are 31 of them, the first being the title line. -/
theorem output_is_not_only_two_tables :
    ∃ p : Proc, Ex03.main ieee 17 = some (p, 0) ∧
      p.stdout.head? = some "Fahrenheit to Celsius conversion table:\n" ∧
      p.stdout.length = 31 ∧ ¬ TwoTablesOnly 16 6 p.stdout := by
  refine ⟨_, main03_eq ieee 17 _ (by decide) (sweepVals03_ieee 17 (le_refl _)), rfl, rfl, ?_⟩
  rintro ⟨a1, s1, c1, a2, s2, c2, rows1, rows2, hout, hr1, hr2, -⟩
  have hl := congrArg List.length hout
  have h6 : (Ex03.ref_temps ieee).length = 6 := rfl
  simp only [List.length_append, List.length_cons, List.length_nil, List.length_map,
    List.length_range, hr1, hr2, h6] at hl
  omega

/-- C6, amended: with enough fuel, `main` of either program returns 0 having written to standard
output, in this order: a title line, the header row (each unit name left-aligned in 6
characters), a separator of 15 dashes, the 16 sweep rows, the same separator, an empty line, the
title `Reference temperatures:`, the header row ending in `| Reference`, a separator of 25 dashes,
the 6 reference rows and the same separator; nothing is written to standard error. -/
theorem main_output_layout (fuel : Nat) (h : 17 ≤ fuel) :
    Ex03.main ieee fuel = some
      (⟨["Fahrenheit to Celsius conversion table:\n", "F      | C     \n", "---------------\n"]
          ++ (List.range 16).map (fun (i : Nat) => Ex03.sweepRow ieee (20 * (i : Rat)))
          ++ ["---------------\n", "\n", "Reference temperatures:\n",
              "F      | C      | Reference\n", "-------------------------\n"]
          ++ (Ex03.ref_temps ieee).map (Ex03.refRow ieee)
          ++ ["-------------------------\n"], []⟩, 0) ∧
    Ex04.main ieee fuel = some
      (⟨["Celsius to Fahrenheit conversion table:\n", "C      | F     \n", "---------------\n"]
          ++ (List.range 16).map (fun (i : Nat) => Ex04.sweepRow ieee (20 * (i : Rat)))
          ++ ["---------------\n", "\n", "Reference temperatures:\n",
              "C      | F      | Reference\n", "-------------------------\n"]
          ++ (Ex04.ref_temps ieee).map (Ex04.refRow ieee)
          ++ ["-------------------------\n"], []⟩, 0) ∧
    isDashLine "---------------\n" = true ∧ isDashLine "-------------------------\n" = true := by
  refine ⟨?_, ?_, by decide, by decide⟩
  · rw [main03_eq ieee fuel _ (by omega) (sweepVals03_ieee fuel h), List.map_map]; rfl
  · rw [main04_eq ieee fuel _ (by omega) (sweepVals04_ieee fuel h), List.map_map]; rfl

/-- C6, amended, with fuel 17: the output of `03.c`. -/
theorem main_output_layout_witness :
    17 ≤ 17 ∧ Ex03.main ieee 17 = some
      (⟨["Fahrenheit to Celsius conversion table:\n", "F      | C     \n", "---------------\n"]
          ++ (List.range 16).map (fun (i : Nat) => Ex03.sweepRow ieee (20 * (i : Rat)))
          ++ ["---------------\n", "\n", "Reference temperatures:\n",
              "F      | C      | Reference\n", "-------------------------\n"]
          ++ (Ex03.ref_temps ieee).map (Ex03.refRow ieee)
          ++ ["-------------------------\n"], []⟩, 0) :=
  ⟨by decide, (main_output_layout 17 (by decide)).1⟩

/-- C7: whatever the arithmetic and the fuel, a run of `main` of `03.c` or of `04.c` that returns,
returns 0 and has written nothing to standard error; and under IEEE arithmetic, with enough fuel,
both do return. -/
theorem main_returns_zero :
    (∀ (A : FloatSem) (fuel : Nat) (p : Proc) (code : Int),
      Ex03.main A fuel = some (p, code) → code = 0 ∧ p.stderr = []) ∧
    (∀ (A : FloatSem) (fuel : Nat) (p : Proc) (code : Int),
      Ex04.main A fuel = some (p, code) → code = 0 ∧ p.stderr = []) ∧
    (∀ fuel : Nat, 17 ≤ fuel →
      (∃ p, Ex03.main ieee fuel = some (p, 0)) ∧ (∃ p, Ex04.main ieee fuel = some (p, 0))) := by
  refine ⟨?_, ?_, ?_⟩
  · intro A fuel p code hm
    simp only [Ex03.main, Option.bind_eq_bind, Option.bind_eq_some, Option.pure_def,
      Option.some.injEq, Prod.mk.injEq] at hm
    obtain ⟨q1, hq1, q2, hq2, hp, hc⟩ := hm
    have e1 := sweepLoop03_stderr A _ _ _ _ hq1
    have e2 := refLoop03_stderr A _ _ _ _ hq2
    refine ⟨hc.symm, ?_⟩
    rw [← hp]
    simp only [printf, Proc.start] at e1 e2 ⊢
    rw [e2, e1]
  · intro A fuel p code hm
    simp only [Ex04.main, Option.bind_eq_bind, Option.bind_eq_some, Option.pure_def,
      Option.some.injEq, Prod.mk.injEq] at hm
    obtain ⟨q1, hq1, q2, hq2, hp, hc⟩ := hm
    have e1 := sweepLoop04_stderr A _ _ _ _ hq1
    have e2 := refLoop04_stderr A _ _ _ _ hq2
    refine ⟨hc.symm, ?_⟩
    rw [← hp]
    simp only [printf, Proc.start] at e1 e2 ⊢
    rw [e2, e1]
  · intro fuel h
    exact ⟨⟨_, main03_eq ieee fuel _ (by omega) (sweepVals03_ieee fuel h)⟩,
      ⟨_, main04_eq ieee fuel _ (by omega) (sweepVals04_ieee fuel h)⟩⟩

/-- C7 with fuel 17: both programs return 0. -/
theorem main_returns_zero_witness :
    17 ≤ 17 ∧ ((∃ p, Ex03.main ieee 17 = some (p, 0)) ∧ (∃ p, Ex04.main ieee 17 = some (p, 0))) :=
  ⟨by decide, main_returns_zero.2.2 17 (by decide)⟩

/-- C8: `main` of `07.c` writes the single line `PENDING` (to standard error), writes nothing
else, and returns 0. -/
theorem stub_prints_pending :
    Ex07.main = (⟨[], ["PENDING\n"]⟩, 0) ∧
    Ex07.main.1.stdout ++ Ex07.main.1.stderr = ["PENDING\n"] ∧ Ex07.main.2 = 0 := by
  refine ⟨rfl, rfl, rfl⟩

/-- Remark on C9: the qualification "in exact arithmetic" matters.  Under IEEE arithmetic the two
`float` neighbours of -40 towards zero and away from zero behave differently: `-40 + 2 ^ (-18)` is
a `float` that `f_to_c` maps to itself, so `f_to_c` has more than one fixed point among the
`float` values. -/
theorem f_to_c_ieee_second_fixed_point :
    ieee.toFloat (-40 + 1 / 2 ^ 18) = -40 + 1 / 2 ^ 18 ∧
    Ex03.f_to_c ieee (-40 + 1 / 2 ^ 18) = -40 + 1 / 2 ^ 18 ∧
    (-40 + 1 / 2 ^ 18 : Rat) ≠ -40 := by decide!

/-- C9: in exact arithmetic -40 is the only fixed point of `f_to_c` and the only fixed point of
`c_to_f`, and in both reference tables the entry labelled `Where F and C are equal` is the one
entry whose value is a fixed point. -/
theorem minus_forty_only_fixed_point :
    (∀ x : Rat, (Ex03.f_to_c exact x = x ↔ x = -40) ∧ (Ex04.c_to_f exact x = x ↔ x = -40)) ∧
    (∀ r ∈ Ex03.ref_temps exact,
      Ex03.f_to_c exact r.fahr = r.fahr ↔ r.ref = "Where F and C are equal") ∧
    (∀ r ∈ Ex04.ref_temps exact,
      Ex04.c_to_f exact r.celsius = r.celsius ↔ r.ref = "Where F and C are equal") := by
  have hfix : ∀ x : Rat,
      (Ex03.f_to_c exact x = x ↔ x = -40) ∧ (Ex04.c_to_f exact x = x ↔ x = -40) := by
    intro x
    simp only [Ex03.f_to_c, Ex04.c_to_f, exact, id]
    constructor <;> constructor <;> intro hx <;> linarith
  refine ⟨hfix, ?_, ?_⟩
  · intro r hr
    rw [(hfix r.fahr).1]
    revert r
    decide!
  · intro r hr
    rw [(hfix r.celsius).2]
    revert r
    decide!

/-- C9 at `x = -40`. -/
theorem minus_forty_only_fixed_point_witness :
    Ex03.f_to_c exact (-40) = -40 ↔ (-40 : Rat) = -40 :=
  (minus_forty_only_fixed_point.1 (-40)).1

/-- C10: the two reference tables carry the same six labels in the same order, and the Celsius
value of each reference point of `04.c` is the conversion by `f_to_c` of the Fahrenheit value of the
same point of `03.c`, rounded to one decimal place: exactly so in exact arithmetic, and under IEEE
arithmetic as the `float` nearest to that decimal, which `%6.1f` prints identically. -/
theorem reference_tables_agree :
    (∀ A : FloatSem, (Ex03.ref_temps A).map (·.ref) = (Ex04.ref_temps A).map (·.ref)) ∧
    (Ex03.ref_temps exact).map (fun r => roundDec1 (Ex03.f_to_c exact r.fahr))
      = (Ex04.ref_temps exact).map (·.celsius) ∧
    (Ex03.ref_temps ieee).map
        (fun r => ieee.toFloat (ieee.toDouble (roundDec1 (Ex03.f_to_c ieee r.fahr))))
      = (Ex04.ref_temps ieee).map (·.celsius) ∧
    (Ex03.ref_temps ieee).map (fun r => fmt_f 6 1 (Ex03.f_to_c ieee r.fahr))
      = (Ex04.ref_temps ieee).map (fun r => fmt_f 6 1 r.celsius) := by
  refine ⟨fun A => rfl, by decide!, by decide!, by decide!⟩

end KR
